import Mathlib

/-
Verification of the Sentinel-2 composite/export script
(src/download-data-test/main.py).

The script's only local logic is the QA60 cloud/cirrus bitmask predicate
inside maskS2clouds; the remaining pipeline steps (updateMask, divide,
select, filterDate/filterBounds/filter, median, bounds, the export job) are
thin calls into the remote Earth Engine platform.  Those remote operations
are modelled here from the specification's contracts, as noted on each
definition; the local bit logic, constants, band lists and control flow are
embedded directly from the source.
-/

namespace SatImg

/-- Cloud flag bit, from the source: cloudBitMask = 1 << 10. -/
def cloudBitMask : Nat := 1 <<< 10

/-- Cirrus flag bit, from the source: cirrusBitMask = 1 << 11. -/
def cirrusBitMask : Nat := 1 <<< 11

/-- Per-pixel validity predicate of maskS2clouds, from the source:
qa.bitwiseAnd(cloudBitMask).eq(0).And(qa.bitwiseAnd(cirrusBitMask).eq(0)). -/
def maskS2cloudsValid (qa : Nat) : Bool :=
  (qa &&& cloudBitMask == 0) && (qa &&& cirrusBitMask == 0)

/-- A raster image: an ordered band-name schema plus, for each band name and
pixel position, an optional rational value; `none` is a pixel masked out by
the per-pixel validity mask (no-data). -/
structure RasterImage where
  bands : List String
  pix : String → Nat → Option ℚ

/-- Modelled from the spec: image.updateMask(m) marks pixels failing the mask
invalid in every band; the band schema is unchanged. -/
def updateMask (img : RasterImage) (m : Nat → Bool) : RasterImage where
  bands := img.bands
  pix := fun b p => if m p then img.pix b p else none

/-- Modelled from the spec: image.divide(s) is a pure elementwise transform
dividing every retained value of every band by s; the mask is unchanged. -/
def imageDivide (img : RasterImage) (s : ℚ) : RasterImage where
  bands := img.bands
  pix := fun b p => (img.pix b p).map (fun v => v / s)

/-- QA values are stored as numeric pixels; this recovers the nonnegative
integer bit pattern of a quality value. -/
def qaBits (v : ℚ) : Nat := v.num.toNat

/-- The per-pixel mask maskS2clouds computes from the image's QA60 band; a
position where QA60 itself is masked stays invalid. -/
def qa60Mask (img : RasterImage) (p : Nat) : Bool :=
  match img.pix "QA60" p with
  | some v => maskS2cloudsValid (qaBits v)
  | none => false

/-- The source's maskS2clouds: image.updateMask(mask).divide(10000). -/
def maskS2clouds (img : RasterImage) : RasterImage :=
  imageDivide (updateMask img (qa60Mask img)) 10000

/-- Modelled from the spec: select(bs) projects an image onto the listed
bands in the requested order, dropping all others. -/
def select (img : RasterImage) (bs : List String) : RasterImage where
  bands := bs
  pix := fun b p => if b ∈ bs then img.pix b p else none

/-- The band list from the source: B4=Red, B3=Green, B2=Blue, B8=NIR. -/
def bandList : List String := ["B4", "B3", "B2", "B8"]

/-- C1: for every quality-bits integer q, the cloud/cirrus mask predicate
keeps the pixel iff bit 10 (cloud) and bit 11 (cirrus) of q are both zero;
in particular it maps 0 and 512 to true and 1024, 2048, 3072 to false. -/
theorem C1_cloud_cirrus_mask :
    (∀ q : Nat, maskS2cloudsValid q = true ↔
      (q.testBit 10 = false ∧ q.testBit 11 = false))
    ∧ maskS2cloudsValid 0 = true
    ∧ maskS2cloudsValid 1024 = false
    ∧ maskS2cloudsValid 2048 = false
    ∧ maskS2cloudsValid 3072 = false
    ∧ maskS2cloudsValid 512 = true := by
  refine ⟨fun q => ?_, by decide, by decide, by decide, by decide, by decide⟩
  have h10 := Nat.and_two_pow q 10
  have h11 := Nat.and_two_pow q 11
  norm_num at h10 h11
  simp only [maskS2cloudsValid, cloudBitMask, cirrusBitMask, Nat.shiftLeft_eq,
    one_mul, Bool.and_eq_true, beq_iff_eq]
  norm_num [h10, h11]

/-- Modelled from the spec: the remote median reducer's per-pixel policy.
Sort the valid values; an odd count takes the middle value, an even count
averages the two middle values, and no valid value at all yields no-data. -/
def medianOfList (l : List ℚ) : Option ℚ :=
  let s := List.insertionSort (· ≤ ·) l
  if s.length = 0 then none
  else if s.length % 2 = 1 then s.get? (s.length / 2)
  else
    match s.get? (s.length / 2 - 1), s.get? (s.length / 2) with
    | some a, some b => some ((a + b) / 2)
    | _, _ => none

/-- The values of band b at position p across the images of a collection in
which that pixel is valid. -/
def validValuesAt (c : List RasterImage) (b : String) (p : Nat) : List ℚ :=
  c.filterMap (fun img => img.pix b p)

/-- Modelled from the spec: collection.median() builds one composite whose
value at each position and band is the median over the images where that
pixel is valid; the schema is the collection's shared schema (taken from the
first image, empty for an empty collection). -/
def collectionMedian (c : List RasterImage) : RasterImage where
  bands := (c.head?.map RasterImage.bands).getD []
  pix := fun b p => medianOfList (validValuesAt c b p)

/-- A single-band constant image used as a concrete test fixture. -/
def constImage (v : ℚ) : RasterImage where
  bands := ["B4"]
  pix := fun _ _ => some v

/-- Four one-pixel images with values 1, 2, 3, 4: the spec's even-count
median example. -/
def evenExample : List RasterImage :=
  [constImage 1, constImage 2, constImage 3, constImage 4]

/-- Sorting is canonical: any sorted permutation of l is insertionSort of l. -/
theorem insertionSort_eq_of_perm_sorted (l s : List ℚ)
    (hp : s.Perm l) (hs : s.Sorted (· ≤ ·)) :
    List.insertionSort (· ≤ ·) l = s :=
  List.eq_of_perm_of_sorted ((List.perm_insertionSort _ l).trans hp.symm)
    (List.sorted_insertionSort _ l) hs

/-- Odd-count median: the middle element of the sorted values. -/
theorem medianOfList_odd (l s : List ℚ) (hp : s.Perm l)
    (hs : s.Sorted (· ≤ ·)) (hodd : s.length % 2 = 1) :
    medianOfList l = s.get? (s.length / 2) := by
  have hsort := insertionSort_eq_of_perm_sorted l s hp hs
  have h0 : ¬ s.length = 0 := by omega
  simp only [medianOfList]
  rw [hsort, if_neg h0, if_pos hodd]

/-- Even-count median: the average of the two middle elements of the sorted
values. -/
theorem medianOfList_even (l s : List ℚ) (hp : s.Perm l)
    (hs : s.Sorted (· ≤ ·)) (k : Nat) (hk : s.length = 2 * k + 2)
    (a a2 : ℚ) (ha : s.get? k = some a) (ha2 : s.get? (k + 1) = some a2) :
    medianOfList l = some ((a + a2) / 2) := by
  have hsort := insertionSort_eq_of_perm_sorted l s hp hs
  have h0 : ¬ s.length = 0 := by omega
  have hmod : ¬ s.length % 2 = 1 := by omega
  have hdiv1 : s.length / 2 - 1 = k := by omega
  have hdiv : s.length / 2 = k + 1 := by omega
  simp only [medianOfList]
  rw [hsort, if_neg h0, if_neg hmod, hdiv1, hdiv, ha, ha2]

/-- C2: the median composite's value at each position and band is the median
of the values across exactly the images in which the pixel is valid: none
when no image is valid, the middle of the sorted values for an odd count,
and the average of the two middle values for an even count; over values
[1,2,3,4] the result is 5/2. -/
theorem C2_median_composite :
    (∀ (c : List RasterImage) (b : String) (p : Nat),
        validValuesAt c b p = [] → (collectionMedian c).pix b p = none)
    ∧ (∀ (c : List RasterImage) (b : String) (p : Nat) (s : List ℚ),
        s.Perm (validValuesAt c b p) → s.Sorted (· ≤ ·) →
        (s.length % 2 = 1 →
          (collectionMedian c).pix b p = s.get? (s.length / 2))
        ∧ (∀ k, s.length = 2 * k + 2 →
            ∀ a a2, s.get? k = some a → s.get? (k + 1) = some a2 →
              (collectionMedian c).pix b p = some ((a + a2) / 2)))
    ∧ (collectionMedian evenExample).pix "B4" 0 = some (5 / 2) := by
  refine ⟨fun c b p h => ?_, fun c b p s hp hs => ⟨fun hodd => ?_,
    fun k hk a a2 ha ha2 => ?_⟩, ?_⟩
  · simp [collectionMedian, h, medianOfList]
  · exact medianOfList_odd _ s hp hs hodd
  · exact medianOfList_even _ s hp hs k hk a a2 ha ha2
  · have h := medianOfList_even (validValuesAt evenExample "B4" 0)
      [1, 2, 3, 4] (by decide) (by decide) 1 (by decide) 2 3 (by decide)
      (by decide)
    rw [show (collectionMedian evenExample).pix "B4" 0
      = medianOfList (validValuesAt evenExample "B4" 0) from rfl, h]
    norm_num

/-- C2 witness: the even-count branch applied to the concrete collection of
values [1,2,3,4]. -/
theorem C2_median_composite_witness :
    (collectionMedian evenExample).pix "B4" 0 = some ((2 + 3) / 2) :=
  (C2_median_composite.2.1 evenExample "B4" 0 [1, 2, 3, 4] (by decide)
    (by decide)).2 1 (by decide) 2 3 (by decide) (by decide)

/-- C3: dividing a masked image by the source's scale constant 10000 keeps
the per-pixel validity mask unchanged and divides every retained value by
10000; the value 10000 rescales to 1 and 0 rescales to 0. -/
theorem C3_rescale :
    (∀ (img : RasterImage) (b : String) (p : Nat),
        ((imageDivide img 10000).pix b p).isSome = (img.pix b p).isSome
        ∧ ∀ v : ℚ, img.pix b p = some v →
            (imageDivide img 10000).pix b p = some (v / 10000))
    ∧ (∀ (img : RasterImage) (b : String) (p : Nat),
        img.pix b p = some 10000 → (imageDivide img 10000).pix b p = some 1)
    ∧ (∀ (img : RasterImage) (b : String) (p : Nat),
        img.pix b p = some 0 → (imageDivide img 10000).pix b p = some 0) := by
  refine ⟨fun img b p => ⟨?_, fun v hv => ?_⟩, fun img b p h => ?_,
    fun img b p h => ?_⟩
  · cases h : img.pix b p <;> simp [imageDivide, h]
  · simp [imageDivide, hv]
  · norm_num [imageDivide, h]
  · norm_num [imageDivide, h]

/-- C3 witness: rescaling a constant image with value 10000 at a concrete
pixel yields 1, and one with value 0 yields 0. -/
theorem C3_rescale_witness :
    (imageDivide (constImage 10000) 10000).pix "B4" 0 = some 1
    ∧ (imageDivide (constImage 0) 10000).pix "B4" 0 = some 0 :=
  ⟨C3_rescale.2.1 (constImage 10000) "B4" 0 rfl,
   C3_rescale.2.2 (constImage 0) "B4" 0 rfl⟩

/-- C5: the median composite of a one-image collection is that image
unchanged, masked pixels staying no-data. -/
theorem C5_median_singleton (img : RasterImage) :
    collectionMedian [img] = img := by
  cases img with
  | mk bs px =>
    simp only [collectionMedian, validValuesAt]
    congr 1
    funext b p
    cases h : px b p <;>
      simp [h, medianOfList, List.insertionSort, List.orderedInsert]

/-- A catalog image: a raster plus the metadata the collection filter reads.
Modelled from the spec: the remote catalog tags each image with an
acquisition date, a scalar cloud-cover percentage, and a footprint
(abstracted here as a finite set of spatial cells). -/
structure SourceImage where
  acquisitionDate : Nat
  cloudyPixelPercentage : ℚ
  footprint : List Nat
  image : RasterImage

/-- Modelled from the spec: the footprint-intersects-region test used by
filterBounds, over the abstract cell model. -/
def intersectsRegion (fp region : List Nat) : Bool :=
  fp.any (fun cell => region.contains cell)

/-- Modelled from the spec: filterDate + filterBounds + the cloud filter of
s2_collection, with both date endpoints inclusive and cloud cover strictly
below the threshold (ee.Filter.lt with MAX_CLOUD_PERCENTAGE). -/
def filterCollection (c : List SourceImage) (startD endD : Nat)
    (region : List Nat) (maxCloud : ℚ) : List SourceImage :=
  c.filter (fun i =>
    decide (startD ≤ i.acquisitionDate) && decide (i.acquisitionDate ≤ endD)
    && intersectsRegion i.footprint region
    && decide (i.cloudyPixelPercentage < maxCloud))

/-- The cloud threshold from the source: MAX_CLOUD_PERCENTAGE = 20. -/
def MAX_CLOUD_PERCENTAGE : ℚ := 20

/-- C4: the collection filter returns the subsequence of images whose date
is in range, whose footprint intersects the region, and whose cloud-cover
metadata is strictly below the threshold, preserving input order; an empty
result is not an error and yields an all-no-data composite downstream. -/
theorem C4_collection_filter :
    (∀ (c : List SourceImage) (startD endD : Nat) (region : List Nat)
        (maxCloud : ℚ),
        (filterCollection c startD endD region maxCloud).Sublist c)
    ∧ (∀ (c : List SourceImage) (startD endD : Nat) (region : List Nat)
        (maxCloud : ℚ) (i : SourceImage),
        i ∈ filterCollection c startD endD region maxCloud ↔
          i ∈ c ∧ startD ≤ i.acquisitionDate ∧ i.acquisitionDate ≤ endD
            ∧ intersectsRegion i.footprint region = true
            ∧ i.cloudyPixelPercentage < maxCloud)
    ∧ (∀ (c : List SourceImage) (startD endD : Nat) (region : List Nat)
        (maxCloud : ℚ) (b : String) (p : Nat),
        filterCollection c startD endD region maxCloud = [] →
        (collectionMedian ((filterCollection c startD endD region
            maxCloud).map
          (fun i => select (maskS2clouds i.image) bandList))).pix b p
          = none) := by
  refine ⟨fun c startD endD region maxCloud => List.filter_sublist c,
    fun c startD endD region maxCloud i => ?_,
    fun c startD endD region maxCloud b p h => ?_⟩
  · rw [filterCollection, List.mem_filter]
    simp only [Bool.and_eq_true, decide_eq_true_eq]
    tauto
  · rw [h]
    simp [collectionMedian, validValuesAt, medianOfList]

/-- C4 witness: the empty-collection case propagates to a no-data composite
pixel. -/
theorem C4_collection_filter_witness :
    (collectionMedian ((filterCollection [] 0 0 [] 0).map
      (fun i => select (maskS2clouds i.image) bandList))).pix "B4" 0
      = none :=
  C4_collection_filter.2.2 [] 0 0 [] 0 "B4" 0 rfl

/-- Observable events of the top-level try/except block around platform
session setup, from the source. -/
inductive InitEvent
  | initAttempt
  | interactiveAuth
  | successMsg
  | uncaughtRaise
deriving DecidableEq

/-- The try/except flow from the source: try ee.Init...; on EEException,
print a notice, run ee.Authenticate(), and try ee.Init... a second time; a
failure of the second attempt is outside the except block, so it is not
caught.  firstOk and secondOk say whether each attempt succeeds. -/
def initFlow (firstOk secondOk : Bool) : List InitEvent :=
  if firstOk then [.initAttempt, .successMsg]
  else if secondOk then
    [.initAttempt, .interactiveAuth, .initAttempt, .successMsg]
  else [.initAttempt, .interactiveAuth, .initAttempt, .uncaughtRaise]

/-- C6: an auth failure is caught exactly once and triggers interactive
re-authentication followed by exactly one retry; a failure of the retry is
not caught and propagates, terminating the process; a successful first
attempt runs no re-authentication. -/
theorem C6_auth_retry_once :
    ∀ firstOk secondOk : Bool,
      (firstOk = false →
        (initFlow firstOk secondOk).count InitEvent.initAttempt = 2
        ∧ (initFlow firstOk secondOk).count InitEvent.interactiveAuth = 1)
      ∧ (firstOk = true →
        (initFlow firstOk secondOk).count InitEvent.initAttempt = 1
        ∧ (initFlow firstOk secondOk).count InitEvent.interactiveAuth = 0)
      ∧ ((initFlow firstOk secondOk).getLast? = some InitEvent.uncaughtRaise
          ↔ firstOk = false ∧ secondOk = false) := by
  decide

/-- C6 witness: with both attempts failing, there are two attempts, one
interactive re-authentication, and an uncaught propagated failure. -/
theorem C6_auth_retry_once_witness :
    (initFlow false false).count InitEvent.initAttempt = 2
    ∧ (initFlow false false).getLast? = some InitEvent.uncaughtRaise :=
  ⟨((C6_auth_retry_once false false).1 rfl).1,
   (C6_auth_retry_once false false).2.2.mpr ⟨rfl, rfl⟩⟩

/-- The fixed sleep between status polls, from the source: time.sleep(10). -/
def pollIntervalSeconds : Nat := 10

/-- Time at which the i-th status poll happens, at the fixed interval. -/
def pollTime (i : Nat) : Nat := pollIntervalSeconds * i

/-- The while export_task.active() loop from the source: active gives the
value returned by the n-th call to active(), fuel bounds how many calls we
observe, and the result is the number of loop iterations once the loop has
exited (none while the job is still active at every observed poll). -/
def pollLoop (active : Nat → Bool) : Nat → Nat → Option Nat
  | 0, _ => none
  | fuel + 1, n => if active n then pollLoop active fuel (n + 1) else some n

/-- If the poll loop exits with m iterations when started at n, the job was
active at every poll from n up to m and inactive at poll m. -/
theorem pollLoop_char (active : Nat → Bool) :
    ∀ (fuel n m : Nat), pollLoop active fuel n = some m →
      n ≤ m ∧ active m = false ∧ ∀ i, n ≤ i → i < m → active i = true := by
  intro fuel
  induction fuel with
  | zero => intro n m h; simp [pollLoop] at h
  | succ f ih =>
    intro n m h
    rw [pollLoop] at h
    by_cases ha : active n = true
    · rw [if_pos ha] at h
      obtain ⟨hle, hm, hall⟩ := ih (n + 1) m h
      exact ⟨by omega, hm, fun i hni him => by
        rcases Nat.eq_or_lt_of_le hni with heq | hlt
        · rw [← heq]; exact ha
        · exact hall i hlt him⟩
    · rw [if_neg ha, Option.some_inj] at h
      subst h
      exact ⟨le_refl n, by simpa using ha, fun i hni him => by omega⟩

/-- While the job stays active the loop never exits, whatever the fuel. -/
theorem pollLoop_none (active : Nat → Bool) (hact : ∀ i, active i = true) :
    ∀ (fuel n : Nat), pollLoop active fuel n = none := by
  intro fuel
  induction fuel with
  | zero => intro n; rfl
  | succ f ih => intro n; rw [pollLoop, if_pos (hact n), ih]

/-- C7: polls happen at a fixed 10-second interval; the loop never exits
while the job is active (and without a timeout it runs forever when the job
never terminates), and when it exits after m polls, the job was active at
every earlier poll and inactive at poll m. -/
theorem C7_poll_until_terminal :
    pollIntervalSeconds = 10
    ∧ (∀ i, pollTime (i + 1) = pollTime i + pollIntervalSeconds)
    ∧ (∀ (active : Nat → Bool) (fuel m : Nat),
        pollLoop active fuel 0 = some m →
          active m = false ∧ ∀ i, i < m → active i = true)
    ∧ (∀ (active : Nat → Bool) (fuel : Nat), (∀ i, active i = true) →
        pollLoop active fuel 0 = none) := by
  refine ⟨rfl, fun i => by simp [pollTime, pollIntervalSeconds]; ring,
    fun active fuel m h => ?_, fun active fuel hact => pollLoop_none
      active hact fuel 0⟩
  obtain ⟨-, hm, hall⟩ := pollLoop_char active fuel 0 m h
  exact ⟨hm, fun i him => hall i (Nat.zero_le i) him⟩

/-- C7 witness: a job active for exactly two polls makes the loop exit at
poll two, and a permanently active job keeps the loop running. -/
theorem C7_poll_until_terminal_witness :
    ((fun n => decide (n < 2)) 2 = false
      ∧ ∀ i, i < 2 → (fun n => decide (n < 2)) i = true)
    ∧ pollLoop (fun _ => true) 5 0 = none :=
  ⟨C7_poll_until_terminal.2.2.1 (fun n => decide (n < 2)) 5 2 (by decide),
   C7_poll_until_terminal.2.2.2 (fun _ => true) 5 (fun i => rfl)⟩

/-- The job-status record read from export_task.status() in the source. -/
structure JobStatus where
  state : String
  error_message : String

/-- What the script reports for a given final status. -/
inductive FinalReport
  | completedReport
  | failedReport (msg : String)
  | otherReport (st : String)
deriving DecidableEq

/-- The final if/elif/else over final_status from the source: COMPLETED
prints success, FAILED prints the error_message field, anything else prints
the state string; all three branches return normally. -/
def reportFinalStatus (st : JobStatus) : FinalReport :=
  if st.state = "COMPLETED" then .completedReport
  else if st.state = "FAILED" then .failedReport st.error_message
  else .otherReport st.state

/-- C8: state FAILED is the only outcome reported through the textual
error-message field: the failure report is produced exactly for FAILED,
carries the status's error_message, and no other state's report depends on
that field; as a total function the report never aborts the script. -/
theorem C8_failed_reporting :
    (∀ st : JobStatus, (∃ m, reportFinalStatus st
        = FinalReport.failedReport m) ↔ st.state = "FAILED")
    ∧ (∀ st : JobStatus, st.state = "FAILED" →
        reportFinalStatus st = FinalReport.failedReport st.error_message)
    ∧ (∀ s e1 e2 : String, s ≠ "FAILED" →
        reportFinalStatus ⟨s, e1⟩ = reportFinalStatus ⟨s, e2⟩) := by
  refine ⟨fun st => ⟨fun ⟨m, hm⟩ => ?_, fun h => ⟨st.error_message, ?_⟩⟩,
    fun st h => ?_, fun s e1 e2 h => ?_⟩
  · by_cases h1 : st.state = "COMPLETED"
    · simp [reportFinalStatus, h1] at hm
    · by_cases h2 : st.state = "FAILED"
      · exact h2
      · simp [reportFinalStatus, h1, h2] at hm
  · have h1 : st.state ≠ "COMPLETED" := by rw [h]; decide
    simp [reportFinalStatus, h1, h]
  · have h1 : st.state ≠ "COMPLETED" := by rw [h]; decide
    simp [reportFinalStatus, h1, h]
  · have h1 : (JobStatus.mk s e1).state = s := rfl
    by_cases hc : s = "COMPLETED" <;> simp [reportFinalStatus, hc, h]

/-- C8 witness: a concrete FAILED status is reported with its error
message. -/
theorem C8_failed_reporting_witness :
    reportFinalStatus ⟨"FAILED", "quota exceeded"⟩
      = FinalReport.failedReport "quota exceeded" :=
  C8_failed_reporting.2.1 ⟨"FAILED", "quota exceeded"⟩ rfl

/-- C9: maskS2clouds divides every band of the image by 10000 — including
the QA60 quality band, whose schema entry it keeps — and only the later
select(['B4','B3','B2','B8']) removes QA60 and every other band, keeping
exactly B4, B3, B2, B8 in that order. -/
theorem C9_qa60_divided_then_dropped :
    (∀ (img : RasterImage) (b : String) (p : Nat) (v : ℚ),
        qa60Mask img p = true → img.pix b p = some v →
        (maskS2clouds img).pix b p = some (v / 10000))
    ∧ (∀ img : RasterImage, (maskS2clouds img).bands = img.bands)
    ∧ (∀ img : RasterImage,
        (select img bandList).bands = ["B4", "B3", "B2", "B8"])
    ∧ "QA60" ∉ bandList
    ∧ (∀ (img : RasterImage) (p : Nat),
        (select img bandList).pix "QA60" p = none) := by
  refine ⟨fun img b p v hm hv => ?_, fun img => rfl, fun img => rfl,
    by decide, fun img p => ?_⟩
  · simp [maskS2clouds, imageDivide, updateMask, hm, hv]
  · simp [select, bandList]

/-- C9 witness: a concrete image whose QA60 value 0 passes the mask has its
QA60 pixel divided by 10000, and selection drops QA60. -/
theorem C9_qa60_divided_then_dropped_witness :
    (maskS2clouds (constImage 0)).pix "QA60" 0 = some (0 / 10000)
    ∧ (select (constImage 0) bandList).pix "QA60" 0 = none :=
  ⟨C9_qa60_divided_then_dropped.1 (constImage 0) "QA60" 0 0 rfl rfl,
   C9_qa60_divided_then_dropped.2.2.2.2 (constImage 0) 0⟩

/-- base_longitude from the source. -/
def base_longitude : ℚ := 26102857 / 1000000

/-- base_latitude from the source. -/
def base_latitude : ℚ := 44427597 / 1000000

/-- The AOI center point from the source. -/
def aoi_point : ℚ × ℚ := (base_longitude, base_latitude)

/-- The buffer radius from the source: aoi_point.buffer(5000). -/
def bufferRadiusMeters : ℚ := 5000

/-- Modelled from the spec: membership in the circular buffer of radius r
around center c (planar model of the remote buffer geometry). -/
def inBufferCircle (c : ℚ × ℚ) (r : ℚ) (p : ℚ × ℚ) : Prop :=
  (p.1 - c.1) ^ 2 + (p.2 - c.2) ^ 2 ≤ r ^ 2

/-- Modelled from the spec: membership in aoi_region.bounds(), the
axis-aligned bounding rectangle of the buffer circle, which is the region
the source passes to the export task. -/
def inBoundsRect (c : ℚ × ℚ) (r : ℚ) (p : ℚ × ℚ) : Prop :=
  c.1 - r ≤ p.1 ∧ p.1 ≤ c.1 + r ∧ c.2 - r ≤ p.2 ∧ p.2 ≤ c.2 + r

/-- C10: the export region is the bounding rectangle of the buffer circle,
so it covers every point of the circle, and for positive radius it also
contains points outside the circle (the rectangle's corner). -/
theorem C10_export_region_is_bbox :
    (∀ (c : ℚ × ℚ) (r : ℚ) (p : ℚ × ℚ), 0 ≤ r →
        inBufferCircle c r p → inBoundsRect c r p)
    ∧ (∀ (c : ℚ × ℚ) (r : ℚ), 0 < r →
        inBoundsRect c r (c.1 + r, c.2 + r)
        ∧ ¬ inBufferCircle c r (c.1 + r, c.2 + r)) := by
  constructor
  · rintro ⟨cx, cy⟩ r ⟨px, py⟩ hr hin
    simp only [inBufferCircle] at hin
    refine ⟨?_, ?_, ?_, ?_⟩ <;> simp only [inBoundsRect] <;> nlinarith
  · rintro ⟨cx, cy⟩ r hr
    constructor
    · refine ⟨?_, ?_, ?_, ?_⟩ <;> simp only [inBoundsRect] <;> nlinarith
    · simp only [inBufferCircle, not_le]
      nlinarith

/-- C10 witness: at the source's AOI center and 5000 m radius, the center
lies in the export rectangle, and the rectangle's corner lies outside the
buffer circle. -/
theorem C10_export_region_is_bbox_witness :
    inBoundsRect aoi_point bufferRadiusMeters aoi_point
    ∧ ¬ inBufferCircle aoi_point bufferRadiusMeters
        (aoi_point.1 + bufferRadiusMeters, aoi_point.2 + bufferRadiusMeters)
      :=
  ⟨C10_export_region_is_bbox.1 aoi_point bufferRadiusMeters aoi_point
      (by norm_num [bufferRadiusMeters])
      (by norm_num [inBufferCircle, bufferRadiusMeters]),
   (C10_export_region_is_bbox.2 aoi_point bufferRadiusMeters
      (by norm_num [bufferRadiusMeters])).2⟩

end SatImg
